import Mathlib

/-!
# Verification of the adaptive network-path rerouting engine

Shallow embedding of `src/backend/src/optimize/rules.py` (`IntelligentRouter`)
together with the data schemas it consumes (`src/backend/src/schemas.py`).

Modelling conventions:
* Python `float` values are modelled as exact rationals (`ℚ`); the float
  literal `1.1` in `_is_route_better` is modelled as `11/10`.
* `float('inf')` (the initial value of the DFS bandwidth accumulator) is
  modelled as `none : Option ℚ`; a finite value `b` is `some b`.
* Python `dict`s are modelled as association lists with insertion-order
  semantics: assignment overwrites the value of an existing key in place and
  appends new keys at the end; iteration follows list order, exactly like
  insertion-ordered Python dicts.
* A Python `KeyError` escaping a method is modelled by returning `none`.
* `time.time()` timestamps and the `expected_improvement` float-report dict of
  `RerouteAction` are not modelled: they are wall-clock / display-only data
  referenced by no property under study.
-/

namespace NodeComm

/-- Health status of a component or link (`schemas.py`, `ComponentStatus`). -/
inductive ComponentStatus
  | healthy
  | degraded
  | failed
  | offline
deriving DecidableEq

/-- A hardware component (`schemas.py`, `HardwareComponent`); only the fields
read by `rules.py` (`id`, `status`) are modelled. -/
structure HardwareComponent where
  id : String
  status : ComponentStatus
deriving DecidableEq

/-- A link between two components (`schemas.py`, `Link`); only the fields read
by `rules.py` are modelled.  The pydantic schema constrains `latency_ms ≥ 0`,
`bandwidth_gbps ≥ 0`, `0 ≤ utilization ≤ 100`, `0 ≤ error_rate ≤ 100`. -/
structure Link where
  id : String
  source_id : String
  target_id : String
  status : ComponentStatus
  latency_ms : ℚ
  bandwidth_gbps : ℚ
  utilization : ℚ
  error_rate : ℚ
deriving DecidableEq

/-- A telemetry snapshot (`schemas.py`, `TelemetryFrame`). -/
structure TelemetryFrame where
  components : List HardwareComponent
  links : List Link
deriving DecidableEq

/-- Route quality tiers (`rules.py`, `RouteQuality`). -/
inductive RouteQuality
  | excellent
  | good
  | fair
  | poor
  | failed
deriving DecidableEq

/-- A network route (`rules.py`, dataclass `Route`).  `min_bandwidth` is an
`Option ℚ` because the DFS seeds its accumulator with `float('inf')`
(modelled `none`). -/
structure Route where
  source_id : String
  target_id : String
  path : List String
  total_latency : ℚ
  min_bandwidth : Option ℚ
  max_utilization : ℚ
  quality : RouteQuality
  hops : Nat
deriving DecidableEq

/-- Issue kind attached to a bottleneck record
(`analyze_network_health` writes the string `"congestion"` or `"failure"`). -/
inductive Issue
  | congestion
  | failure
deriving DecidableEq

/-- A flagged bottleneck (`analyze_network_health`, the dict appended to
`analysis["bottlenecks"]`); the display-only metric fields of the congestion
variant are not modelled. -/
structure Bottleneck where
  link_id : String
  source_id : String
  target_id : String
  issue : Issue
deriving DecidableEq

/-- A reroute suggestion (`rules.py`, dataclass `RerouteAction`); the
`timestamp` and `expected_improvement` reporting fields are not modelled. -/
structure RerouteAction where
  source_id : String
  target_id : String
  old_route : Option Route
  new_route : Route
  reason : String
deriving DecidableEq

/-! ## Insertion-ordered dictionaries as association lists -/

/-- `d[k]` lookup of an insertion-ordered Python dict. -/
def dict_get [DecidableEq κ] (k : κ) : List (κ × α) → Option α
  | [] => none
  | (k', v) :: rest => if k = k' then some v else dict_get k rest

/-- `d[k] = v` of an insertion-ordered Python dict: overwrite in place when the
key is present, append at the end otherwise. -/
def dict_set [DecidableEq κ] (k : κ) (v : α) : List (κ × α) → List (κ × α)
  | [] => [(k, v)]
  | (k', v') :: rest =>
    if k = k' then (k, v) :: rest else (k', v') :: dict_set k v rest

/-- Adjacency view: node id ↦ (neighbor id ↦ ids of connecting links),
mirroring `self.topology_cache : Dict[str, Dict[str, List[str]]]`. -/
abbrev TopologyCache := List (String × List (String × List String))

/-- Route cache keyed by (source, target),
mirroring `self.route_cache : Dict[Tuple[str, str], List[Route]]`. -/
abbrev RouteCache := List ((String × String) × List Route)

/-- The mutable state of an `IntelligentRouter` instance. -/
structure RouterState where
  topology_cache : TopologyCache
  route_cache : RouteCache
  active_routes : List ((String × String) × Route)
  reroute_history : List RerouteAction

/-! ## Tunables (`IntelligentRouter.__init__`) -/

/-- `self.max_hops = 4`. -/
def max_hops : Nat := 4

/-- `self.latency_weight = 0.4`. -/
def latency_weight : ℚ := 4/10

/-- `self.bandwidth_weight = 0.3`. -/
def bandwidth_weight : ℚ := 3/10

/-- `self.utilization_weight = 0.3`. -/
def utilization_weight : ℚ := 3/10

/-- `reroute_thresholds["latency_ms"] = 10.0`. -/
def latency_threshold_ms : ℚ := 10

/-- `reroute_thresholds["utilization_pct"] = 85.0`. -/
def utilization_threshold_pct : ℚ := 85

/-- `reroute_thresholds["error_rate_pct"] = 5.0`.  NOTE: this entry is defined
at `rules.py:82` (comment: "Reroute if error rate > 5%") but is never read
anywhere in the module. -/
def error_rate_threshold_pct : ℚ := 5

/-! ## update_topology (`rules.py:85-105`) -/

/-- First phase of `update_topology`: `self.topology_cache[component.id] = {}`
for every component of the snapshot. -/
def init_topology (components : List HardwareComponent) : TopologyCache :=
  components.foldl (fun acc c => dict_set c.id [] acc) []

/-- `self.topology_cache[a][b].append(id)` for an outer key `a` that is known
to be present (as it is at rules.py:104-105, after the entries were created);
the `none` fallback is unreachable there. -/
def append_entry (a b id : String) (topo : TopologyCache) : TopologyCache :=
  match dict_get a topo with
  | some adj =>
    dict_set a (dict_set b ((dict_get b adj).getD [] ++ [id]) adj) topo
  | none => topo

/-- Second phase of `update_topology`, one healthy link (`rules.py:96-105`):
create the two adjacency entries when absent, then append the link id to both.
A lookup of an endpoint id that is not an outer key of the adjacency dict is a
Python `KeyError`, modelled as `none`. -/
def add_link (link : Link) (topo : TopologyCache) : Option TopologyCache :=
  match dict_get link.source_id topo with
  | none => none
  | some src_adj =>
    let topo1 :=
      if dict_get link.target_id src_adj = none
      then dict_set link.source_id (dict_set link.target_id [] src_adj) topo
      else topo
    match dict_get link.target_id topo1 with
    | none => none
    | some tgt_adj =>
      let topo2 :=
        if dict_get link.source_id tgt_adj = none
        then dict_set link.target_id (dict_set link.source_id [] tgt_adj) topo1
        else topo1
      some (append_entry link.target_id link.source_id link.id
        (append_entry link.source_id link.target_id link.id topo2))

/-- One iteration of the link loop of `IntelligentRouter.update_topology`:
only healthy links are added; a healthy link referencing an unknown endpoint
raises `KeyError` (modelled `none`), aborting the rest of the loop.  The route
cache is NOT touched by this method in the source. -/
def topology_step (acc : Option TopologyCache) (link : Link) :
    Option TopologyCache :=
  acc.bind fun topo =>
    if link.status = ComponentStatus.healthy then add_link link topo
    else some topo

/-- `IntelligentRouter.update_topology` main loop. -/
def update_topology (tel : TelemetryFrame) : Option TopologyCache :=
  tel.links.foldl topology_step (some (init_topology tel.components))

/-! ## Link metrics and route quality -/

/-- `IntelligentRouter._get_link_metrics` (`rules.py:344-354`): scan
`telemetry.links` for the first link joining the two endpoints (either
direction); a healthy match yields its metrics, an unhealthy match or no match
yields `(None, 0.0, 100.0)`. -/
def get_link_metrics (source_id target_id : String) (tel : TelemetryFrame) :
    Option ℚ × ℚ × ℚ :=
  match tel.links.find? (fun l =>
      (l.source_id = source_id ∧ l.target_id = target_id) ∨
      (l.source_id = target_id ∧ l.target_id = source_id)) with
  | some l =>
    if l.status = ComponentStatus.healthy then
      (some l.latency_ms, l.bandwidth_gbps, l.utilization)
    else (none, 0, 100)
  | none => (none, 0, 100)

/-- `IntelligentRouter._assess_route_quality` (`rules.py:356-365`); the
bandwidth argument is accepted and ignored exactly as in the source. -/
def assess_route_quality (latency : ℚ) (_bandwidth : Option ℚ) (utilization : ℚ) :
    RouteQuality :=
  if latency < 2 ∧ utilization < 50 then RouteQuality.excellent
  else if latency < 5 ∧ utilization < 70 then RouteQuality.good
  else if latency < 10 ∧ utilization < 85 then RouteQuality.fair
  else RouteQuality.poor

/-- Construction of a `Route` value, including the `__post_init__` rule
`hops = len(path) - 1`. -/
def mk_route (source_id target_id : String) (path : List String)
    (total_latency : ℚ) (min_bandwidth : Option ℚ) (max_utilization : ℚ) :
    Route :=
  ⟨source_id, target_id, path, total_latency, min_bandwidth, max_utilization,
   assess_route_quality total_latency min_bandwidth max_utilization,
   path.length - 1⟩

/-- `min(acc, b)` for the bandwidth accumulator seeded with `float('inf')`:
`min(inf, b) = b`, `min(a, b)` otherwise. -/
def min_inf (acc : Option ℚ) (b : ℚ) : Option ℚ :=
  match acc with
  | none => some b
  | some a => some (min a b)

/-! ## Route scoring (`rules.py:367-389`) -/

/-- `latency_score = max(0, 20 - route.total_latency) / 20`. -/
def latency_score (route : Route) : ℚ :=
  max 0 (20 - route.total_latency) / 20

/-- `bandwidth_score = min(1.0, route.min_bandwidth / 100.0)`.  For
`min_bandwidth = inf` the Python expression evaluates to `1.0`, hence the
`none` branch. -/
def bandwidth_score (route : Route) : ℚ :=
  match route.min_bandwidth with
  | none => (1 : ℚ)
  | some bw => min 1 (bw / 100)

/-- `utilization_score = max(0, 100 - route.max_utilization) / 100`. -/
def utilization_score (route : Route) : ℚ :=
  max 0 (100 - route.max_utilization) / 100

/-- `hop_score = max(0, (self.max_hops - route.hops)) / self.max_hops`. -/
def hop_score (route : Route) : ℚ :=
  max 0 ((max_hops : ℚ) - (route.hops : ℚ)) / (max_hops : ℚ)

/-- `IntelligentRouter._route_score`: the weighted combination of the four
normalized sub-scores (hop bonus weight `0.1`). -/
def route_score (route : Route) : ℚ :=
  latency_score route * latency_weight + bandwidth_score route * bandwidth_weight +
    utilization_score route * utilization_weight + hop_score route * (1/10)

/-- Insert a route into a list that is sorted by descending score, after all
elements of greater-or-equal score (stable). -/
def insert_desc (r : Route) : List Route → List Route
  | [] => [r]
  | x :: xs =>
    if route_score x < route_score r then r :: x :: xs else x :: insert_desc r xs

/-- `routes.sort(key=lambda r: self._route_score(r), reverse=True)`
(`rules.py:165`): a stable sort by descending score.  Python's Timsort is
stable; an insertion sort by the same key is an equivalent stable sort and is
used here so the definition evaluates by kernel reduction. -/
def sort_routes (routes : List Route) : List Route :=
  routes.foldl (fun acc r => insert_desc r acc) []

/-! ## Route search (`rules.py:107-169`) -/

/-- The recursive closure `dfs_routes` of `IntelligentRouter.find_all_routes`.
The Python version mutates a shared `visited` set, adding `current` before the
neighbor loop and removing it afterwards; every early `return` happens before
the `add`, so at each call `visited` equals the set of path nodes minus the
current node, and the mutate-and-backtrack discipline is equivalent to the
explicit `visited` argument used here (the neighbor filter consults
`current :: visited`).  The accumulation of found routes into the shared
`routes` list in discovery order is rendered as list concatenation in neighbor
order (`List.bind`).  The `fuel` argument only bounds recursion depth for
Lean's termination checker: `find_all_routes` passes `max_hops + 2`, and the
guard `path.length > max_hops + 1` (checked first, exactly as in the source)
fires strictly before fuel can reach zero, so the fuel-exhaustion branch is
unreachable from the top-level call. -/
def dfs_routes (topo : TopologyCache) (tel : TelemetryFrame)
    (source_id target_id : String) :
    Nat → String → List String → List String → ℚ → Option ℚ → ℚ → List Route
  | 0, _, _, _, _, _, _ => []
  | fuel + 1, current, path, visited, total_latency, min_bandwidth, max_util =>
    if path.length > max_hops + 1 then []
    else if current = target_id ∧ 1 < path.length then
      [mk_route source_id target_id path total_latency min_bandwidth max_util]
    else if current ∈ visited then []
    else
      match dict_get current topo with
      | none => []
      | some nbrs =>
        (nbrs.map Prod.fst).flatMap fun neighbor_id =>
          if neighbor_id ∈ current :: visited then []
          else
            match get_link_metrics current neighbor_id tel with
            | (some link_latency, link_bandwidth, link_util) =>
              dfs_routes topo tel source_id target_id fuel neighbor_id
                (path ++ [neighbor_id]) (current :: visited)
                (total_latency + link_latency) (min_inf min_bandwidth link_bandwidth)
                (max max_util link_util)
            | (none, _, _) => []

/-- `IntelligentRouter.find_all_routes`: serve the cached list for the pair if
present; otherwise run the DFS from `[source_id]` with accumulators
`(0.0, inf, 0.0)`, sort best-first, cache and return. -/
def find_all_routes (topo : TopologyCache) (tel : TelemetryFrame)
    (source_id target_id : String) (cache : RouteCache) :
    List Route × RouteCache :=
  match dict_get (source_id, target_id) cache with
  | some routes => (routes, cache)
  | none =>
    let routes := dfs_routes topo tel source_id target_id (max_hops + 2)
      source_id [source_id] [] 0 none 0
    let sorted := sort_routes routes
    (sorted, dict_set (source_id, target_id) sorted cache)

/-! ## Bottleneck scan (`rules.py:203-229`) -/

/-- The bottleneck extraction of `IntelligentRouter.analyze_network_health`:
a healthy link is flagged `congestion` when its utilization or latency
strictly exceeds its threshold (NOTE: the error-rate threshold is never
consulted in the source); any non-healthy link is flagged `failure`.  The
aggregate counters and averages of the analysis dict are referenced by no
claim and are not modelled. -/
def analyze_bottlenecks (tel : TelemetryFrame) : List Bottleneck :=
  tel.links.foldl
    (fun acc link =>
      if link.status = ComponentStatus.healthy then
        if link.utilization > utilization_threshold_pct ∨
            link.latency_ms > latency_threshold_ms then
          acc ++ [⟨link.id, link.source_id, link.target_id, Issue.congestion⟩]
        else acc
      else acc ++ [⟨link.id, link.source_id, link.target_id, Issue.failure⟩])
    []

/-! ## Decision gate and advisor (`rules.py:238-296, 391-405`) -/

/-- `IntelligentRouter._is_route_better`: no old route, or a `failure`
bottleneck, always wins; otherwise require
`new_score > old_score * 1.1`. -/
def is_route_better (new_route : Route) (old_route : Option Route)
    (issue : Issue) : Bool :=
  match old_route with
  | none => true
  | some old =>
    if issue = Issue.failure then true
    else decide (route_score old * (11/10) < route_score new_route)

/-- The suggestion condition of `suggest_reroutes` (`rules.py:262-263`):
`current_route is None or self._is_route_better(best, current, bottleneck)`. -/
def suggest_gate (best : Route) (current : Option Route) (issue : Issue) : Bool :=
  current.isNone || is_route_better best current issue

/-- The reason string `f"Avoid {issue} on {link_id}"`. -/
def issue_label : Issue → String
  | Issue.congestion => "congestion"
  | Issue.failure => "failure"

/-- The body of the per-bottleneck loop of `suggest_reroutes`
(`rules.py:247-279`), threading the route cache: find candidate routes for the
bottleneck's endpoints, take the first (top-ranked) as `best`, and append a
suggestion when the gate passes.  The source's guard
`issue == "congestion" or issue == "failure"` is always true since `Issue` has
exactly those two values. -/
def bottleneck_step (topo : TopologyCache) (tel : TelemetryFrame)
    (active : List ((String × String) × Route))
    (acc : List RerouteAction × RouteCache) (b : Bottleneck) :
    List RerouteAction × RouteCache :=
  let result := find_all_routes topo tel b.source_id b.target_id acc.2
  match result.1 with
  | [] => (acc.1, result.2)
  | best :: _ =>
    let current := dict_get (b.source_id, b.target_id) active
    if suggest_gate best current b.issue then
      (acc.1 ++ [⟨b.source_id, b.target_id, current, best,
        "Avoid " ++ issue_label b.issue ++ " on " ++ b.link_id⟩], result.2)
    else (acc.1, result.2)

/-- `IntelligentRouter.suggest_reroutes`: rebuild the topology (propagating a
`KeyError` as `none`), scan for bottlenecks, and run the per-bottleneck loop.
The route cache carried in the state is reused as-is — nothing clears it. -/
def suggest_reroutes (tel : TelemetryFrame) (st : RouterState) :
    Option (List RerouteAction × RouterState) :=
  match update_topology tel with
  | none => none
  | some topo =>
    let folded := (analyze_bottlenecks tel).foldl
      (bottleneck_step topo tel st.active_routes) ([], st.route_cache)
    some (folded.1, ⟨topo, folded.2, st.active_routes, st.reroute_history⟩)

/-- `IntelligentRouter.execute_reroute`: overwrite the active-route entry for
the pair and append the action to the history, returning `True`.  The
`try/except` of the source cannot fire: a dict assignment under a hashable key
and a list append never raise, so the `False` branch is dead code. -/
def execute_reroute (action : RerouteAction) (st : RouterState) :
    Bool × RouterState :=
  (true,
   ⟨st.topology_cache, st.route_cache,
    dict_set (action.source_id, action.target_id) action.new_route
      st.active_routes,
    st.reroute_history ++ [action]⟩)



/-! ## Basic dictionary lemmas -/

theorem dict_get_dict_set [DecidableEq κ] (k k' : κ) (v : α)
    (d : List (κ × α)) :
    dict_get k (dict_set k' v d) = if k = k' then some v else dict_get k d := by
  induction d with
  | nil =>
    by_cases h : k = k' <;> simp [dict_get, dict_set, h]
  | cons hd tl ih =>
    obtain ⟨k₀, v₀⟩ := hd
    by_cases h1 : k' = k₀
    · subst h1
      by_cases h2 : k = k' <;> simp [dict_get, dict_set, h2]
    · by_cases h2 : k = k₀
      · subst h2
        have h3 : ¬ k = k' := fun h => h1 h.symm
        simp [dict_get, dict_set, h1, h3, Ne.symm h1]
      · simp [dict_get, dict_set, h1, h2, ih]

/-! ## Sorting lemmas -/

theorem mem_insert_desc (x r : Route) (l : List Route) :
    x ∈ insert_desc r l ↔ x = r ∨ x ∈ l := by
  induction l with
  | nil => simp [insert_desc]
  | cons hd tl ih =>
    by_cases h : route_score hd < route_score r
    · simp [insert_desc, h]
    · simp [insert_desc, h, ih]
      tauto

theorem mem_sort_routes (x : Route) (l : List Route) :
    x ∈ sort_routes l ↔ x ∈ l := by
  have key : ∀ (l : List Route) (acc : List Route),
      x ∈ l.foldl (fun acc r => insert_desc r acc) acc ↔ x ∈ acc ∨ x ∈ l := by
    intro l
    induction l with
    | nil => simp
    | cons hd tl ih =>
      intro acc
      rw [List.foldl_cons, ih, mem_insert_desc]
      simp only [List.mem_cons]
      tauto
  rw [sort_routes, key]
  simp

/-! ## Claim C1 — bottleneck scan vs. the error-rate threshold -/

/-- A healthy link whose error rate (6%) exceeds the 5% threshold while
utilization (50% ≤ 85%) and latency (5 ms ≤ 10 ms) are within bounds. -/
def linkC1 : Link :=
  ⟨"l1", "n1", "n2", ComponentStatus.healthy, 5, 10, 50, 6⟩

/-- Snapshot containing only `linkC1`. -/
def telC1 : TelemetryFrame :=
  ⟨[⟨"n1", ComponentStatus.healthy⟩, ⟨"n2", ComponentStatus.healthy⟩],
   [linkC1]⟩

/-- C1: the claim states that a healthy link whose error rate strictly exceeds
the 5% threshold is flagged `congestion` even when utilization and latency are
within bounds.  The scan in `analyze_network_health` (rules.py:211-212) only
tests utilization and latency; the error-rate threshold defined at rules.py:82
(documented there as "Reroute if error rate > 5%") is never consulted, so the
link of `telC1` — healthy, error rate 6% > 5%, utilization 50% ≤ 85%, latency
5 ms ≤ 10 ms — produces no bottleneck at all. -/
theorem C1_error_rate_never_flagged :
    linkC1.status = ComponentStatus.healthy ∧
    linkC1.error_rate > error_rate_threshold_pct ∧
    linkC1.utilization ≤ utilization_threshold_pct ∧
    linkC1.latency_ms ≤ latency_threshold_ms ∧
    analyze_bottlenecks telC1 = [] := by
  refine ⟨rfl, by decide, by decide, by decide, ?_⟩
  norm_num [analyze_bottlenecks, telC1, linkC1, utilization_threshold_pct,
    latency_threshold_ms]

/-! ## Claim C9 — monotonicity of the route score -/

theorem latency_score_anti (r r' : Route)
    (h : r'.total_latency ≤ r.total_latency) :
    latency_score r ≤ latency_score r' := by
  unfold latency_score
  gcongr

theorem utilization_score_anti (r r' : Route)
    (h : r'.max_utilization ≤ r.max_utilization) :
    utilization_score r ≤ utilization_score r' := by
  unfold utilization_score
  gcongr

theorem hop_score_anti (r r' : Route) (h : r'.hops ≤ r.hops) :
    hop_score r ≤ hop_score r' := by
  have hc : (r'.hops : ℚ) ≤ (r.hops : ℚ) := by exact_mod_cast h
  unfold hop_score max_hops
  gcongr

theorem bandwidth_score_mono (r r' : Route) (b b' : ℚ)
    (hb : r.min_bandwidth = some b) (hb' : r'.min_bandwidth = some b')
    (h : b ≤ b') : bandwidth_score r ≤ bandwidth_score r' := by
  unfold bandwidth_score
  rw [hb, hb']
  exact min_le_min le_rfl (by linarith)

theorem route_score_of_parts (r r' : Route)
    (h1 : latency_score r ≤ latency_score r')
    (h2 : bandwidth_score r ≤ bandwidth_score r')
    (h3 : utilization_score r ≤ utilization_score r')
    (h4 : hop_score r ≤ hop_score r') :
    route_score r ≤ route_score r' := by
  unfold route_score latency_weight bandwidth_weight utilization_weight
  gcongr

theorem latency_score_congr (r r' : Route)
    (h : r'.total_latency = r.total_latency) :
    latency_score r' = latency_score r := by
  unfold latency_score; rw [h]

theorem bandwidth_score_congr (r r' : Route)
    (h : r'.min_bandwidth = r.min_bandwidth) :
    bandwidth_score r' = bandwidth_score r := by
  unfold bandwidth_score; rw [h]

theorem utilization_score_congr (r r' : Route)
    (h : r'.max_utilization = r.max_utilization) :
    utilization_score r' = utilization_score r := by
  unfold utilization_score; rw [h]

theorem hop_score_congr (r r' : Route) (h : r'.hops = r.hops) :
    hop_score r' = hop_score r := by
  unfold hop_score; rw [h]

/-- C9: `_route_score` (rules.py:367-389) is monotone in each route metric
with the others held fixed: strictly decreasing total latency, peak
utilization, or hop count does not decrease the score, and strictly
increasing bottleneck bandwidth does not decrease the score. -/
theorem C9_route_score_monotone (r r' : Route) :
    (r'.min_bandwidth = r.min_bandwidth → r'.max_utilization = r.max_utilization →
      r'.hops = r.hops → r'.total_latency < r.total_latency →
      route_score r ≤ route_score r') ∧
    (r'.total_latency = r.total_latency → r'.min_bandwidth = r.min_bandwidth →
      r'.hops = r.hops → r'.max_utilization < r.max_utilization →
      route_score r ≤ route_score r') ∧
    (r'.total_latency = r.total_latency → r'.min_bandwidth = r.min_bandwidth →
      r'.max_utilization = r.max_utilization → r'.hops < r.hops →
      route_score r ≤ route_score r') ∧
    (∀ b b', r.min_bandwidth = some b → r'.min_bandwidth = some b' →
      r'.total_latency = r.total_latency → r'.max_utilization = r.max_utilization →
      r'.hops = r.hops → b < b' → route_score r ≤ route_score r') := by
  refine ⟨?_, ?_, ?_, ?_⟩
  · intro hbw hu hh hl
    exact route_score_of_parts r r' (latency_score_anti r r' hl.le)
      (bandwidth_score_congr r r' hbw).ge (utilization_score_congr r r' hu).ge
      (hop_score_congr r r' hh).ge
  · intro hl hbw hh hu
    exact route_score_of_parts r r' (latency_score_congr r r' hl).ge
      (bandwidth_score_congr r r' hbw).ge (utilization_score_anti r r' hu.le)
      (hop_score_congr r r' hh).ge
  · intro hl hbw hu hh
    exact route_score_of_parts r r' (latency_score_congr r r' hl).ge
      (bandwidth_score_congr r r' hbw).ge (utilization_score_congr r r' hu).ge
      (hop_score_anti r r' hh.le)
  · intro b b' hb hb' hl hu hh hbw
    exact route_score_of_parts r r' (latency_score_congr r r' hl).ge
      (bandwidth_score_mono r r' b b' hb hb' hbw.le)
      (utilization_score_congr r r' hu).ge (hop_score_congr r r' hh).ge

/-- A concrete route used to instantiate hypothesis-bearing theorems. -/
def routeA : Route :=
  ⟨"a", "b", ["a", "b"], 5, some 10, 50, RouteQuality.good, 1⟩

/-- `routeA` with a strictly smaller total latency, all else equal. -/
def routeB : Route :=
  ⟨"a", "b", ["a", "b"], 4, some 10, 50, RouteQuality.good, 1⟩

theorem C9_witness :
    routeB.total_latency < routeA.total_latency ∧
    route_score routeA ≤ route_score routeB :=
  ⟨by decide, (C9_route_score_monotone routeA routeB).1 rfl rfl rfl (by decide)⟩

/-! ## Claim C4 — the advisor decision gate -/

/-- C4: the decision gate of `suggest_reroutes` (rules.py:262-263 together
with `_is_route_better`, rules.py:391-405): with no active route recorded the
best candidate is always suggested; with a `failure` bottleneck it is always
suggested; with a `congestion` bottleneck and an active route, a suggestion is
emitted exactly when `score(best) > score(active) * 1.1`. -/
theorem C4_decision_gate (best : Route) (current : Option Route)
    (issue : Issue) :
    (current = none → suggest_gate best current issue = true) ∧
    (issue = Issue.failure → suggest_gate best current issue = true) ∧
    (∀ active, current = some active → issue = Issue.congestion →
      (suggest_gate best current issue = true ↔
        route_score active * (11/10) < route_score best)) := by
  refine ⟨?_, ?_, ?_⟩
  · intro h; subst h; rfl
  · intro h
    subst h
    cases current with
    | none => rfl
    | some a => simp [suggest_gate, is_route_better]
  · intro active hc hi
    subst hc
    subst hi
    simp [suggest_gate, is_route_better]

theorem C4_witness :
    (suggest_gate routeA none Issue.congestion = true) ∧
    (suggest_gate routeA (some routeB) Issue.failure = true) ∧
    (suggest_gate routeA (some routeB) Issue.congestion = true ↔
      route_score routeB * (11/10) < route_score routeA) :=
  ⟨(C4_decision_gate routeA none Issue.congestion).1 rfl,
   (C4_decision_gate routeA (some routeB) Issue.failure).2.1 rfl,
   (C4_decision_gate routeA (some routeB) Issue.congestion).2.2 routeB rfl rfl⟩

/-! ## Claim C8 — execute_reroute commits unconditionally -/

/-- C8 (amended): `execute_reroute` always fully succeeds for every decision:
it reports `True`, the active-route entry for the pair is overwritten with the
new route, every other pair is untouched, the decision is appended to the
history, and no other state is mutated.  No validation or rejection path
exists (the `except` branch of rules.py:294-296 is dead code for a dict
assignment and a list append). -/
theorem C8_execute_reroute_total (action : RerouteAction) (st : RouterState) :
    (execute_reroute action st).1 = true ∧
    dict_get (action.source_id, action.target_id)
      (execute_reroute action st).2.active_routes = some action.new_route ∧
    (∀ p, p ≠ (action.source_id, action.target_id) →
      dict_get p (execute_reroute action st).2.active_routes =
        dict_get p st.active_routes) ∧
    (execute_reroute action st).2.reroute_history =
      st.reroute_history ++ [action] ∧
    (execute_reroute action st).2.route_cache = st.route_cache ∧
    (execute_reroute action st).2.topology_cache = st.topology_cache := by
  refine ⟨rfl, ?_, ?_, rfl, rfl, rfl⟩
  · show dict_get _ (dict_set _ _ _) = _
    rw [dict_get_dict_set]
    simp
  · intro p hp
    show dict_get _ (dict_set _ _ _) = _
    rw [dict_get_dict_set]
    simp [hp]

/-- A snapshot whose components are `a` and `b` only. -/
def telC8 : TelemetryFrame :=
  ⟨[⟨"a", ComponentStatus.healthy⟩, ⟨"b", ComponentStatus.healthy⟩], []⟩

/-- A route through node `ghost`, which `telC8` does not contain. -/
def routeGhost : Route :=
  ⟨"a", "ghost", ["a", "ghost"], 1, some 1, 1, RouteQuality.excellent, 1⟩

/-- A decision whose route references the absent node `ghost`. -/
def actionC8 : RerouteAction :=
  ⟨"a", "ghost", none, routeGhost, "manual"⟩

/-- Router state after a topology update from `telC8`: the node `ghost` is
absent from the adjacency view and no active route is recorded. -/
def stC8 : RouterState :=
  ⟨(update_topology telC8).getD [], [], [], []⟩

/-- C8 (counterexample): the claim asserts that a decision whose route
references a node absent from the last topology update is rejected and leaves
the active-route table untouched.  Committing `actionC8` — whose route visits
`ghost`, absent from the adjacency built from `telC8` — instead returns `True`
and overwrites the table entry. -/
theorem C8_counterexample :
    dict_get "ghost" stC8.topology_cache = none ∧
    routeGhost.path = ["a", "ghost"] ∧
    dict_get ("a", "ghost") stC8.active_routes = none ∧
    (execute_reroute actionC8 stC8).1 = true ∧
    dict_get ("a", "ghost") (execute_reroute actionC8 stC8).2.active_routes =
      some routeGhost ∧
    (execute_reroute actionC8 stC8).2.reroute_history = [actionC8] := by
  decide

theorem C8_witness :
    (execute_reroute actionC8 stC8).1 = true ∧
    dict_get ("b", "c") (execute_reroute actionC8 stC8).2.active_routes =
      dict_get ("b", "c") stC8.active_routes :=
  ⟨(C8_execute_reroute_total actionC8 stC8).1,
   (C8_execute_reroute_total actionC8 stC8).2.2.1 ("b", "c") (by decide)⟩

/-! ## Claim C7 — update_topology on unknown endpoints -/

theorem dict_get_set_same_key (k : κ) (v : α) (d : List (κ × α))
    [DecidableEq κ] (h : dict_get k d ≠ none) (k' : κ) :
    (dict_get k' (dict_set k v d) = none ↔ dict_get k' d = none) := by
  rw [dict_get_dict_set]
  by_cases hk : k' = k
  · subst hk
    simp [h]
  · simp [hk]

theorem append_entry_keys (a b id : String) (topo : TopologyCache) (k : String) :
    dict_get k (append_entry a b id topo) = none ↔ dict_get k topo = none := by
  unfold append_entry
  cases h : dict_get a topo with
  | none => rfl
  | some adj =>
    exact dict_get_set_same_key a _ topo (by rw [h]; exact fun hc => by cases hc) k

/-- `add_link` fails exactly when an endpoint of the link is not an outer key
of the adjacency view. -/
theorem add_link_none_iff (link : Link) (topo : TopologyCache) :
    add_link link topo = none ↔
      dict_get link.source_id topo = none ∨
      dict_get link.target_id topo = none := by
  unfold add_link
  cases h1 : dict_get link.source_id topo with
  | none => simp
  | some src_adj =>
    dsimp only
    by_cases hc : dict_get link.target_id src_adj = none
    · rw [if_pos hc, dict_get_dict_set]
      by_cases he : link.target_id = link.source_id
      · rw [if_pos he]
        dsimp only
        simp [he, h1]
      · rw [if_neg he]
        cases h2 : dict_get link.target_id topo with
        | none => simp
        | some tgt_adj => simp
    · rw [if_neg hc]
      cases h2 : dict_get link.target_id topo with
      | none => simp
      | some tgt_adj => simp

/-- A successful `add_link` preserves the outer key set of the adjacency
view (only inner adjacency entries are created). -/
theorem add_link_keys (link : Link) (topo topo' : TopologyCache)
    (h : add_link link topo = some topo') (k : String) :
    dict_get k topo' = none ↔ dict_get k topo = none := by
  unfold add_link at h
  cases h1 : dict_get link.source_id topo with
  | none => rw [h1] at h; cases h
  | some src_adj =>
    rw [h1] at h
    have h1' : dict_get link.source_id topo ≠ none := by simp [h1]
    dsimp only at h
    by_cases hc : dict_get link.target_id src_adj = none
    · rw [if_pos hc] at h
      cases h2 : dict_get link.target_id
          (dict_set link.source_id (dict_set link.target_id [] src_adj) topo) with
      | none => rw [h2] at h; cases h
      | some tgt_adj =>
        rw [h2] at h
        have h2' : dict_get link.target_id
            (dict_set link.source_id (dict_set link.target_id [] src_adj) topo) ≠
              none := by simp [h2]
        dsimp only at h
        by_cases hd : dict_get link.source_id tgt_adj = none
        · rw [if_pos hd] at h
          injection h with h
          rw [← h, append_entry_keys, append_entry_keys,
            dict_get_set_same_key _ _ _ h2' k,
            dict_get_set_same_key _ _ _ h1' k]
        · rw [if_neg hd] at h
          injection h with h
          rw [← h, append_entry_keys, append_entry_keys,
            dict_get_set_same_key _ _ _ h1' k]
    · rw [if_neg hc] at h
      cases h2 : dict_get link.target_id topo with
      | none => rw [h2] at h; cases h
      | some tgt_adj =>
        rw [h2] at h
        have h2' : dict_get link.target_id topo ≠ none := by simp [h2]
        dsimp only at h
        by_cases hd : dict_get link.source_id tgt_adj = none
        · rw [if_pos hd] at h
          injection h with h
          rw [← h, append_entry_keys, append_entry_keys,
            dict_get_set_same_key _ _ _ h2' k]
        · rw [if_neg hd] at h
          injection h with h
          rw [← h, append_entry_keys, append_entry_keys]

/-- Folding the link loop from an already-failed accumulator stays failed. -/
theorem topology_fold_none (links : List Link) :
    links.foldl topology_step none = none := by
  induction links with
  | nil => rfl
  | cons l rest ih =>
    rw [List.foldl_cons]
    exact ih

/-- The link loop of `update_topology` fails exactly when some healthy link
references an endpoint that is not a key of the starting adjacency view. -/
theorem topology_fold_none_iff (links : List Link) :
    ∀ topo : TopologyCache,
      links.foldl topology_step (some topo) = none ↔
        ∃ l ∈ links, l.status = ComponentStatus.healthy ∧
          (dict_get l.source_id topo = none ∨ dict_get l.target_id topo = none) := by
  induction links with
  | nil => intro topo; simp
  | cons l rest ih =>
    intro topo
    rw [List.foldl_cons]
    by_cases hs : l.status = ComponentStatus.healthy
    · have hstep : topology_step (some topo) l = add_link l topo := by
        simp [topology_step, hs]
      rw [hstep]
      cases ha : add_link l topo with
      | none =>
        rw [topology_fold_none rest]
        exact iff_of_true rfl
          ⟨l, List.mem_cons_self l rest, hs, (add_link_none_iff l topo).mp ha⟩
      | some topo' =>
        rw [ih topo']
        have hkeys := add_link_keys l topo topo' ha
        have hl_ok :
            ¬(dict_get l.source_id topo = none ∨ dict_get l.target_id topo = none) := by
          rw [← add_link_none_iff l topo, ha]
          simp
        constructor
        · rintro ⟨l', hl', hst, hmiss⟩
          refine ⟨l', List.mem_cons_of_mem _ hl', hst, ?_⟩
          rcases hmiss with h | h
          · exact Or.inl ((hkeys _).mp h)
          · exact Or.inr ((hkeys _).mp h)
        · rintro ⟨l', hl', hst, hmiss⟩
          rcases List.mem_cons.mp hl' with rfl | hl''
          · exact absurd hmiss hl_ok
          · refine ⟨l', hl'', hst, ?_⟩
            rcases hmiss with h | h
            · exact Or.inl ((hkeys _).mpr h)
            · exact Or.inr ((hkeys _).mpr h)
    · have hstep : topology_step (some topo) l = some topo := by
        simp [topology_step, hs]
      rw [hstep, ih topo]
      constructor
      · rintro ⟨l', hl', hst, hmiss⟩
        exact ⟨l', List.mem_cons_of_mem _ hl', hst, hmiss⟩
      · rintro ⟨l', hl', hst, hmiss⟩
        rcases List.mem_cons.mp hl' with rfl | hl''
        · exact absurd hst hs
        · exact ⟨l', hl'', hst, hmiss⟩

/-- The outer keys produced by the component loop are exactly the component
ids. -/
theorem init_topology_get_none (comps : List HardwareComponent) (k : String) :
    dict_get k (init_topology comps) = none ↔ ∀ c ∈ comps, c.id ≠ k := by
  unfold init_topology
  have key : ∀ (cs : List HardwareComponent) (acc : TopologyCache),
      dict_get k (cs.foldl (fun acc c => dict_set c.id [] acc) acc) = none ↔
        (dict_get k acc = none ∧ ∀ c ∈ cs, c.id ≠ k) := by
    intro cs
    induction cs with
    | nil =>
      intro acc
      simp
    | cons c rest ih =>
      intro acc
      rw [List.foldl_cons, ih, dict_get_dict_set]
      by_cases hk : k = c.id
      · simp [hk]
      · have hck : ¬ c.id = k := fun hcc => hk hcc.symm
        simp only [hk, if_false, List.mem_cons]
        constructor
        · rintro ⟨hacc, hrest⟩
          exact ⟨hacc, fun c' hc' => by
            rcases hc' with rfl | hc''
            · exact hck
            · exact hrest c' hc''⟩
        · rintro ⟨hacc, hall⟩
          exact ⟨hacc, fun c' hc' => hall c' (Or.inr hc')⟩
  exact (key comps []).trans (by simp [dict_get])

/-- A healthy link (`l1`) whose target endpoint `ghost` matches no component
of the snapshot. -/
def telC7 : TelemetryFrame :=
  ⟨[⟨"a", ComponentStatus.healthy⟩],
   [⟨"l1", "a", "ghost", ComponentStatus.healthy, 1, 1, 1, 0⟩]⟩

/-- C7 (counterexample): the claim asserts that the topology update never
raises a hard failure and skips edges with unknown endpoints (surfacing a
count).  On `telC7` — a single healthy edge whose target id matches no node —
`update_topology` instead raises `KeyError` (modelled `none`): the build does
not continue and no skipped-edge count exists anywhere in the module. -/
theorem C7_counterexample : update_topology telC7 = none := by decide

/-- C7 (amended): the topology update raises a hard failure (`KeyError`,
modelled `none`) precisely when some healthy edge of the snapshot references a
source or target identifier matching no node; unknown endpoints are never
skipped and no count of skipped edges is reported.  (Edges that are not
healthy are ignored by the build regardless of their endpoints.) -/
theorem C7_update_topology_failure_iff (tel : TelemetryFrame) :
    update_topology tel = none ↔
      ∃ l ∈ tel.links, l.status = ComponentStatus.healthy ∧
        ((∀ c ∈ tel.components, c.id ≠ l.source_id) ∨
         (∀ c ∈ tel.components, c.id ≠ l.target_id)) := by
  unfold update_topology
  rw [topology_fold_none_iff tel.links (init_topology tel.components)]
  refine exists_congr fun l => and_congr_right fun _ => and_congr_right fun _ => ?_
  exact or_congr (init_topology_get_none _ _) (init_topology_get_none _ _)

/-! ## Claims C2/C3/C10 — soundness of the route search -/

/-- Unfolding equation of `dfs_routes` at positive fuel. -/
theorem dfs_routes_succ (topo : TopologyCache) (tel : TelemetryFrame)
    (s t : String) (fuel : Nat) (current : String) (path visited : List String)
    (lat : ℚ) (bw : Option ℚ) (util : ℚ) :
    dfs_routes topo tel s t (fuel + 1) current path visited lat bw util =
      if path.length > max_hops + 1 then []
      else if current = t ∧ 1 < path.length then
        [mk_route s t path lat bw util]
      else if current ∈ visited then []
      else
        match dict_get current topo with
        | none => []
        | some nbrs =>
          (nbrs.map Prod.fst).flatMap fun neighbor_id =>
            if neighbor_id ∈ current :: visited then []
            else
              match get_link_metrics current neighbor_id tel with
              | (some link_latency, link_bandwidth, link_util) =>
                dfs_routes topo tel s t fuel neighbor_id (path ++ [neighbor_id])
                  (current :: visited) (lat + link_latency)
                  (min_inf bw link_bandwidth) (max util link_util)
              | (none, _, _) => [] := rfl

/-- Decomposition of membership in a nonempty list whose last element is
known. -/
theorem mem_iff_dropLast_or_last (path : List String) (current : String)
    (hne : path ≠ []) (hlast : path.getLast? = some current) :
    ∀ x, x ∈ path ↔ x ∈ path.dropLast ∨ x = current := by
  have h2 : current = path.getLast hne := by
    rw [List.getLast?_eq_getLast path hne] at hlast
    exact (Option.some.inj hlast).symm
  have h1 : path.dropLast ++ [path.getLast hne] = path :=
    List.dropLast_append_getLast hne
  intro x
  constructor
  · intro hx
    rw [← h1] at hx
    rcases List.mem_append.mp hx with h | h
    · exact Or.inl h
    · exact Or.inr (by simpa [h2] using h)
  · intro hx
    rw [← h1]
    rcases hx with h | h
    · exact List.mem_append.mpr (Or.inl h)
    · exact List.mem_append.mpr (Or.inr (by simp [h, h2]))

/-- Soundness of the DFS: every route it emits has a duplicate-free path of
more than one and at most `max_hops + 1` nodes, starting at the search source
and ending at the target, with `hops = len(path) - 1`. -/
theorem dfs_routes_sound (topo : TopologyCache) (tel : TelemetryFrame)
    (s t : String) :
    ∀ (fuel : Nat) (current : String) (path visited : List String)
      (lat : ℚ) (bw : Option ℚ) (util : ℚ),
      path ≠ [] →
      path.getLast? = some current →
      path.Nodup →
      (∀ x, x ∈ visited ↔ x ∈ path.dropLast) →
      path.head? = some s →
      ∀ r ∈ dfs_routes topo tel s t fuel current path visited lat bw util,
        r.path.Nodup ∧ r.path.length ≤ max_hops + 1 ∧ 1 < r.path.length ∧
        r.path.head? = some s ∧ r.path.getLast? = some t ∧
        r.source_id = s ∧ r.target_id = t ∧ r.hops = r.path.length - 1 := by
  intro fuel
  induction fuel with
  | zero =>
    intro current path visited lat bw util _ _ _ _ _ r hr
    cases hr
  | succ fuel ih =>
    intro current path visited lat bw util hne hlast hnodup hvis hhead r hr
    rw [dfs_routes_succ] at hr
    by_cases hlen : path.length > max_hops + 1
    · rw [if_pos hlen] at hr
      cases hr
    · rw [if_neg hlen] at hr
      by_cases hacc : current = t ∧ 1 < path.length
      · rw [if_pos hacc] at hr
        rcases List.mem_singleton.mp hr with rfl
        dsimp only [mk_route]
        refine ⟨hnodup, by omega, hacc.2, hhead, ?_, rfl, rfl, rfl⟩
        rw [hlast, hacc.1]
      · rw [if_neg hacc] at hr
        by_cases hcv : current ∈ visited
        · rw [if_pos hcv] at hr
          cases hr
        · rw [if_neg hcv] at hr
          cases hnbrs : dict_get current topo with
          | none =>
            rw [hnbrs] at hr
            cases hr
          | some nbrs =>
            rw [hnbrs] at hr
            dsimp only at hr
            rcases List.mem_flatMap.mp hr with ⟨n, _, hbody⟩
            by_cases hnv : n ∈ current :: visited
            · rw [if_pos hnv] at hbody
              cases hbody
            · rw [if_neg hnv] at hbody
              have hmem := mem_iff_dropLast_or_last path current hne hlast
              have hnp : n ∉ path := by
                intro hcon
                rcases (hmem n).mp hcon with h | h
                · exact hnv (List.mem_cons_of_mem _ ((hvis n).mpr h))
                · exact hnv (h ▸ List.mem_cons_self _ _)
              cases hm : get_link_metrics current n tel with
              | mk olat rest =>
                rw [hm] at hbody
                cases olat with
                | none =>
                  cases hbody
                | some link_latency =>
                  obtain ⟨link_bandwidth, link_util⟩ := rest
                  refine ih n (path ++ [n]) (current :: visited) _ _ _
                    (by simp) (List.getLast?_concat path) ?_ ?_ ?_ r hbody
                  · refine List.nodup_append.mpr
                      ⟨hnodup, List.nodup_singleton n, ?_⟩
                    intro a ha hb
                    rw [List.mem_singleton] at hb
                    exact hnp (hb ▸ ha)
                  · intro x
                    rw [List.dropLast_concat]
                    constructor
                    · intro hx
                      rcases List.mem_cons.mp hx with rfl | hx
                      · exact (hmem x).mpr (Or.inr rfl)
                      · exact (hmem x).mpr (Or.inl ((hvis x).mp hx))
                    · intro hx
                      rcases (hmem x).mp hx with h | h
                      · exact List.mem_cons_of_mem _ ((hvis x).mpr h)
                      · exact h ▸ List.mem_cons_self _ _
                  · rw [List.head?_append, hhead]
                    rfl

/-- C2: on a cache miss, every route returned by `find_all_routes` is a simple
path (no duplicate node) of more than one node, with `hops = len(path) - 1`
bounded by `max_hops`, starting at the source and ending at the target; and a
path is accepted by the search exactly at the point where the current node
equals the target with path length > 1 (second conjunct: whenever the DFS
reaches the target with more than one node within the hop bound, it emits that
path — so a length-1 source-to-itself path is never a result). -/
theorem C2_find_all_routes_simple_bounded (topo : TopologyCache)
    (tel : TelemetryFrame) (s t : String) (cache : RouteCache)
    (hmiss : dict_get (s, t) cache = none) :
    (∀ r ∈ (find_all_routes topo tel s t cache).1,
       r.path.Nodup ∧ r.hops ≤ max_hops ∧ r.hops = r.path.length - 1 ∧
       1 < r.path.length ∧ r.path.head? = some s ∧ r.path.getLast? = some t) ∧
    (∀ (fuel : Nat) (current : String) (path visited : List String)
       (lat : ℚ) (bw : Option ℚ) (util : ℚ),
       ¬ path.length > max_hops + 1 → current = t → 1 < path.length →
       dfs_routes topo tel s t (fuel + 1) current path visited lat bw util =
         [mk_route s t path lat bw util]) := by
  constructor
  · intro r hr
    have hdfs : r ∈ dfs_routes topo tel s t (max_hops + 2) s [s] [] 0 none 0 := by
      unfold find_all_routes at hr
      rw [hmiss] at hr
      dsimp only at hr
      exact (mem_sort_routes r _).mp hr
    have h := dfs_routes_sound topo tel s t (max_hops + 2) s [s] [] 0 none 0
      (by simp) rfl (by simp) (by simp) rfl r hdfs
    obtain ⟨h1, h2, h3, h4, h5, _, _, h8⟩ := h
    refine ⟨h1, ?_, h8, h3, h4, h5⟩
    rw [h8]
    omega
  · intro fuel current path visited lat bw util hlen hcur hgt
    rw [dfs_routes_succ, if_neg hlen, if_pos ⟨hcur, hgt⟩]

/-- Telemetry with two components joined by one healthy link. -/
def telC2 : TelemetryFrame :=
  ⟨[⟨"a", ComponentStatus.healthy⟩, ⟨"b", ComponentStatus.healthy⟩],
   [⟨"lab", "a", "b", ComponentStatus.healthy, 1, 10, 10, 0⟩]⟩

/-- Adjacency view built from `telC2`. -/
def topoC2 : TopologyCache := (update_topology telC2).getD []

/-- The single route of `telC2` from `a` to `b`. -/
def routeC2 : Route := mk_route "a" "b" ["a", "b"] 1 (some 10) 10

theorem C2_witness :
    dict_get ("a", "b") ([] : RouteCache) = none ∧
    routeC2 ∈ (find_all_routes topoC2 telC2 "a" "b" []).1 ∧
    (routeC2.path.Nodup ∧ routeC2.hops ≤ max_hops ∧
     routeC2.hops = routeC2.path.length - 1 ∧ 1 < routeC2.path.length ∧
     routeC2.path.head? = some "a" ∧ routeC2.path.getLast? = some "b") := by
  have heval : (find_all_routes topoC2 telC2 "a" "b" ([] : RouteCache)).1 =
      [routeC2] := by
    simp [find_all_routes, dfs_routes, dict_get, dict_set, telC2, topoC2,
      update_topology, init_topology, add_link, append_entry, topology_step,
      get_link_metrics, max_hops, min_inf, sort_routes, insert_desc, mk_route,
      routeC2]
  have hmem : routeC2 ∈ (find_all_routes topoC2 telC2 "a" "b" ([] : RouteCache)).1 := by
    rw [heval]
    exact List.mem_singleton_self _
  exact ⟨rfl, hmem,
    (C2_find_all_routes_simple_bounded topoC2 telC2 "a" "b" [] rfl).1 routeC2 hmem⟩

/-- Once the target sits in the visited set and the current node differs from
it, the DFS can emit nothing: a visited node is never re-entered. -/
theorem dfs_routes_target_visited (topo : TopologyCache) (tel : TelemetryFrame)
    (s t : String) :
    ∀ (fuel : Nat) (current : String) (path visited : List String)
      (lat : ℚ) (bw : Option ℚ) (util : ℚ),
      current ≠ t → t ∈ visited →
      dfs_routes topo tel s t fuel current path visited lat bw util = [] := by
  intro fuel
  induction fuel with
  | zero =>
    intros
    rfl
  | succ fuel ih =>
    intro current path visited lat bw util hct htv
    rw [dfs_routes_succ]
    by_cases hlen : path.length > max_hops + 1
    · rw [if_pos hlen]
    · rw [if_neg hlen, if_neg (fun h : current = t ∧ 1 < path.length => hct h.1)]
      by_cases hcv : current ∈ visited
      · rw [if_pos hcv]
      · rw [if_neg hcv]
        cases hnbrs : dict_get current topo with
        | none => rfl
        | some nbrs =>
          dsimp only
          refine List.flatMap_eq_nil_iff.mpr fun n hn => ?_
          by_cases hnv : n ∈ current :: visited
          · rw [if_pos hnv]
          · rw [if_neg hnv]
            have hnt : n ≠ t := fun h => hnv (h ▸ List.mem_cons_of_mem _ htv)
            cases hm : get_link_metrics current n tel with
            | mk olat rest =>
              cases olat with
              | none => rfl
              | some ll =>
                obtain ⟨lb, lu⟩ := rest
                exact ih n (path ++ [n]) (current :: visited) _ _ _ hnt
                  (List.mem_cons_of_mem _ htv)

/-- C10: on a cache miss for the pair `(s, s)`, the route search from a node
to itself returns the empty list — the source is marked visited before its
neighbors are explored and a visited node is never re-entered, so no cyclic
route of any length is produced. -/
theorem C10_no_self_route (topo : TopologyCache) (tel : TelemetryFrame)
    (sid : String) (cache : RouteCache)
    (hmiss : dict_get (sid, sid) cache = none) :
    (find_all_routes topo tel sid sid cache).1 = [] := by
  unfold find_all_routes
  rw [hmiss]
  dsimp only
  have hdfs : dfs_routes topo tel sid sid (max_hops + 2) sid [sid] [] 0 none 0 =
      [] := by
    rw [show max_hops + 2 = (max_hops + 1) + 1 from rfl, dfs_routes_succ]
    rw [if_neg (by simp [max_hops]), if_neg (by simp), if_neg (by simp)]
    cases hnbrs : dict_get sid topo with
    | none => rfl
    | some nbrs =>
      dsimp only
      refine List.flatMap_eq_nil_iff.mpr fun n hn => ?_
      by_cases hnv : n ∈ sid :: ([] : List String)
      · rw [if_pos hnv]
      · rw [if_neg hnv]
        have hns : n ≠ sid := fun h => hnv (h ▸ List.mem_cons_self _ _)
        cases hm : get_link_metrics sid n tel with
        | mk olat rest =>
          cases olat with
          | none => rfl
          | some ll =>
            obtain ⟨lb, lu⟩ := rest
            exact dfs_routes_target_visited topo tel sid sid (max_hops + 1) n
              ([sid] ++ [n]) [sid] _ _ _ hns (List.mem_cons_self _ _)
  rw [hdfs]
  rfl

theorem C10_witness :
    dict_get ("a", "a") ([] : RouteCache) = none ∧
    (find_all_routes topoC2 telC2 "a" "a" []).1 = [] :=
  ⟨rfl, C10_no_self_route topoC2 telC2 "a" [] rfl⟩

/-- Spec-side notion for C3: the metrics `_get_link_metrics` yields for each
consecutive pair of nodes along a path (`(latency, bandwidth, utilization)`
per traversed edge, in path order); `none` when some hop has no healthy
link. -/
def path_edge_metrics (tel : TelemetryFrame) :
    List String → Option (List (ℚ × ℚ × ℚ))
  | [] => some []
  | [_] => some []
  | a :: b :: rest =>
    match get_link_metrics a b tel with
    | (some lat, bw, util) =>
      (path_edge_metrics tel (b :: rest)).map (fun ms => (lat, bw, util) :: ms)
    | (none, _, _) => none

theorem path_edge_metrics_length (tel : TelemetryFrame) :
    ∀ (p : List String) (ms : List (ℚ × ℚ × ℚ)),
      path_edge_metrics tel p = some ms → ms.length = p.length - 1 := by
  intro p
  induction p with
  | nil =>
    intro ms h
    cases Option.some.inj h
    rfl
  | cons a p' ih =>
    intro ms h
    cases p' with
    | nil =>
      cases Option.some.inj h
      rfl
    | cons b rest =>
      unfold path_edge_metrics at h
      cases hm : get_link_metrics a b tel with
      | mk olat mrest =>
        rw [hm] at h
        cases olat with
        | none => cases h
        | some lat =>
          obtain ⟨bw, util⟩ := mrest
          dsimp only at h
          rcases Option.map_eq_some'.mp h with ⟨ms', hms', rfl⟩
          have hlen := ih ms' hms'
          simp only [List.length_cons] at hlen ⊢
          omega

theorem path_edge_metrics_concat (tel : TelemetryFrame) :
    ∀ (p : List String) (c n : String) (ms : List (ℚ × ℚ × ℚ))
      (lat bw util : ℚ),
      p ≠ [] → p.getLast? = some c →
      path_edge_metrics tel p = some ms →
      get_link_metrics c n tel = (some lat, bw, util) →
      path_edge_metrics tel (p ++ [n]) = some (ms ++ [(lat, bw, util)]) := by
  intro p
  induction p with
  | nil =>
    intro c n ms lat bw util hne
    exact absurd rfl hne
  | cons a p' ih =>
    intro c n ms lat bw util _ hlast hms hm
    cases p' with
    | nil =>
      have hca : c = a := by
        cases Option.some.inj hlast
        rfl
      cases Option.some.inj hms
      subst hca
      show path_edge_metrics tel [c, n] = some [(lat, bw, util)]
      unfold path_edge_metrics
      rw [hm]
      rfl
    | cons b rest =>
      have hlast' : (b :: rest).getLast? = some c := by
        rw [List.getLast?_cons_cons] at hlast
        exact hlast
      unfold path_edge_metrics at hms
      cases hab : get_link_metrics a b tel with
      | mk olat mrest =>
        rw [hab] at hms
        cases olat with
        | none => cases hms
        | some lat0 =>
          obtain ⟨bw0, util0⟩ := mrest
          dsimp only at hms
          rcases Option.map_eq_some'.mp hms with ⟨ms', hms', rfl⟩
          have hstep := ih c n ms' lat bw util (by simp) hlast' hms' hm
          show path_edge_metrics tel (a :: b :: (rest ++ [n])) = _
          unfold path_edge_metrics
          rw [hab]
          dsimp only
          rw [show b :: (rest ++ [n]) = (b :: rest) ++ [n] from rfl, hstep]
          rfl

/-- The metrics returned by a successful `_get_link_metrics` lookup come from
a healthy link of the snapshot. -/
theorem get_link_metrics_some (a b : String) (tel : TelemetryFrame)
    (lat bw util : ℚ)
    (h : get_link_metrics a b tel = (some lat, bw, util)) :
    ∃ l ∈ tel.links, l.status = ComponentStatus.healthy ∧
      lat = l.latency_ms ∧ bw = l.bandwidth_gbps ∧ util = l.utilization := by
  unfold get_link_metrics at h
  cases hf : tel.links.find? (fun l =>
      (l.source_id = a ∧ l.target_id = b) ∨
      (l.source_id = b ∧ l.target_id = a)) with
  | none =>
    rw [hf] at h
    cases h
  | some l =>
    rw [hf] at h
    dsimp only at h
    by_cases hst : l.status = ComponentStatus.healthy
    · rw [if_pos hst, Prod.mk.injEq, Prod.mk.injEq] at h
      obtain ⟨h1, h2, h3⟩ := h
      exact ⟨l, List.mem_of_find?_eq_some hf, hst,
        (Option.some.inj h1).symm, h2.symm, h3.symm⟩
    · rw [if_neg hst, Prod.mk.injEq] at h
      exact Option.noConfusion h.1

theorem path_edge_metrics_util_nonneg (tel : TelemetryFrame)
    (hu : ∀ l ∈ tel.links, 0 ≤ l.utilization) :
    ∀ (p : List String) (ms : List (ℚ × ℚ × ℚ)),
      path_edge_metrics tel p = some ms → ∀ m ∈ ms, 0 ≤ m.2.2 := by
  intro p
  induction p with
  | nil =>
    intro ms h
    cases Option.some.inj h
    intro m hm
    cases hm
  | cons a p' ih =>
    intro ms h
    cases p' with
    | nil =>
      cases Option.some.inj h
      intro m hm
      cases hm
    | cons b rest =>
      unfold path_edge_metrics at h
      cases hab : get_link_metrics a b tel with
      | mk olat mrest =>
        rw [hab] at h
        cases olat with
        | none => cases h
        | some lat0 =>
          obtain ⟨bw0, util0⟩ := mrest
          dsimp only at h
          rcases Option.map_eq_some'.mp h with ⟨ms', hms', rfl⟩
          intro m hm
          rcases List.mem_cons.mp hm with rfl | hm'
          · rcases get_link_metrics_some a b tel lat0 bw0 util0 hab with
              ⟨l, hl, _, _, _, hul⟩
            exact hul ▸ hu l hl
          · exact ih ms' hms' m hm'

/-- Folding the `min(inf, ·)` accumulator over a list computes its minimum. -/
theorem foldl_min_inf_eq_min? :
    ∀ l : List ℚ, l.foldl min_inf none = l.min? := by
  have key : ∀ (l : List ℚ) (a : ℚ),
      l.foldl min_inf (some a) = some (l.foldl min a) := by
    intro l
    induction l with
    | nil => intro a; rfl
    | cons x xs ih => intro a; exact ih (min a x)
  intro l
  cases l with
  | nil => rfl
  | cons a as => exact key as a

/-- For a nonempty list of nonnegative rationals, folding `max` from `0`
computes the maximum. -/
theorem foldl_max_zero_eq_max? (l : List ℚ) (hne : l ≠ [])
    (h0 : ∀ u ∈ l, 0 ≤ u) : l.max? = some (l.foldl max 0) := by
  cases l with
  | nil => exact absurd rfl hne
  | cons a as =>
    have ha : max 0 a = a := max_eq_right (h0 a (List.mem_cons_self a as))
    show some (as.foldl max a) = some ((a :: as).foldl max 0)
    rw [List.foldl_cons, ha]

/-- Metric soundness of the DFS: the accumulators of every emitted route are
exactly the sum / running minimum / running maximum of the per-edge metrics
along its path. -/
theorem dfs_routes_metrics (topo : TopologyCache) (tel : TelemetryFrame)
    (s t : String) (hu : ∀ l ∈ tel.links, 0 ≤ l.utilization) :
    ∀ (fuel : Nat) (current : String) (path visited : List String)
      (lat : ℚ) (bw : Option ℚ) (util : ℚ) (ms : List (ℚ × ℚ × ℚ)),
      path ≠ [] →
      path.getLast? = some current →
      path_edge_metrics tel path = some ms →
      lat = (ms.map (fun m => m.1)).sum →
      bw = (ms.map (fun m => m.2.1)).foldl min_inf none →
      util = (ms.map (fun m => m.2.2)).foldl max 0 →
      ∀ r ∈ dfs_routes topo tel s t fuel current path visited lat bw util,
        ∃ ms', path_edge_metrics tel r.path = some ms' ∧ ms' ≠ [] ∧
          r.total_latency = (ms'.map (fun m => m.1)).sum ∧
          r.min_bandwidth = (ms'.map (fun m => m.2.1)).min? ∧
          (ms'.map (fun m => m.2.2)).max? = some r.max_utilization := by
  intro fuel
  induction fuel with
  | zero =>
    intro current path visited lat bw util ms _ _ _ _ _ _ r hr
    cases hr
  | succ fuel ih =>
    intro current path visited lat bw util ms hne hlast hms hlat hbw hutil r hr
    rw [dfs_routes_succ] at hr
    by_cases hlen : path.length > max_hops + 1
    · rw [if_pos hlen] at hr
      cases hr
    · rw [if_neg hlen] at hr
      by_cases hacc : current = t ∧ 1 < path.length
      · rw [if_pos hacc] at hr
        rcases List.mem_singleton.mp hr with rfl
        dsimp only [mk_route]
        refine ⟨ms, hms, ?_, hlat, ?_, ?_⟩
        · have hl := path_edge_metrics_length tel path ms hms
          intro hnil
          rw [hnil] at hl
          simp at hl
          omega
        · rw [hbw, foldl_min_inf_eq_min?]
        · have hmsne : ms ≠ [] := by
            have hl := path_edge_metrics_length tel path ms hms
            intro hnil
            rw [hnil] at hl
            simp at hl
            omega
          rw [foldl_max_zero_eq_max? _ ?_ ?_, hutil]
          · intro hnil
            exact hmsne (List.map_eq_nil_iff.mp hnil)
          · intro u hmu
            rcases List.mem_map.mp hmu with ⟨m, hm, rfl⟩
            exact path_edge_metrics_util_nonneg tel hu path ms hms m hm
      · rw [if_neg hacc] at hr
        by_cases hcv : current ∈ visited
        · rw [if_pos hcv] at hr
          cases hr
        · rw [if_neg hcv] at hr
          cases hnbrs : dict_get current topo with
          | none =>
            rw [hnbrs] at hr
            cases hr
          | some nbrs =>
            rw [hnbrs] at hr
            dsimp only at hr
            rcases List.mem_flatMap.mp hr with ⟨n, _, hbody⟩
            by_cases hnv : n ∈ current :: visited
            · rw [if_pos hnv] at hbody
              cases hbody
            · rw [if_neg hnv] at hbody
              cases hm : get_link_metrics current n tel with
              | mk olat mrest =>
                rw [hm] at hbody
                cases olat with
                | none => cases hbody
                | some link_latency =>
                  obtain ⟨link_bandwidth, link_util⟩ := mrest
                  refine ih n (path ++ [n]) (current :: visited) _ _ _
                    (ms ++ [(link_latency, link_bandwidth, link_util)])
                    (by simp) (List.getLast?_concat path)
                    (path_edge_metrics_concat tel path current n ms
                      link_latency link_bandwidth link_util hne hlast hms hm)
                    ?_ ?_ ?_ r hbody
                  · rw [hlat, List.map_append, List.sum_append]
                    simp
                  · rw [hbw, List.map_append, List.foldl_append]
                    rfl
                  · rw [hutil, List.map_append, List.foldl_append]
                    rfl

/-- C3: on a cache miss, every route returned by `find_all_routes` carries a
total latency equal to the exact sum of the per-edge latencies along its path,
a bottleneck bandwidth equal to the minimum per-edge bandwidth, and a peak
utilization equal to the maximum per-edge utilization (per-edge metrics being
those `_get_link_metrics` resolves for each consecutive node pair; the
nonnegativity hypothesis on utilizations restates the pydantic schema bound
`0 ≤ utilization`). -/
theorem C3_route_metrics (topo : TopologyCache) (tel : TelemetryFrame)
    (s t : String) (cache : RouteCache)
    (hmiss : dict_get (s, t) cache = none)
    (hu : ∀ l ∈ tel.links, 0 ≤ l.utilization) :
    ∀ r ∈ (find_all_routes topo tel s t cache).1,
      ∃ ms, path_edge_metrics tel r.path = some ms ∧ ms ≠ [] ∧
        r.total_latency = (ms.map (fun m => m.1)).sum ∧
        r.min_bandwidth = (ms.map (fun m => m.2.1)).min? ∧
        (ms.map (fun m => m.2.2)).max? = some r.max_utilization := by
  intro r hr
  have hdfs : r ∈ dfs_routes topo tel s t (max_hops + 2) s [s] [] 0 none 0 := by
    unfold find_all_routes at hr
    rw [hmiss] at hr
    dsimp only at hr
    exact (mem_sort_routes r _).mp hr
  exact dfs_routes_metrics topo tel s t hu (max_hops + 2) s [s] [] 0 none 0 []
    (by simp) rfl rfl rfl rfl rfl r hdfs

theorem C3_witness :
    dict_get ("a", "b") ([] : RouteCache) = none ∧
    (∀ l ∈ telC2.links, 0 ≤ l.utilization) ∧
    ∃ ms, path_edge_metrics telC2 routeC2.path = some ms ∧ ms ≠ [] ∧
      routeC2.total_latency = (ms.map (fun m => m.1)).sum ∧
      routeC2.min_bandwidth = (ms.map (fun m => m.2.1)).min? ∧
      (ms.map (fun m => m.2.2)).max? = some routeC2.max_utilization := by
  have hu : ∀ l ∈ telC2.links, 0 ≤ l.utilization := by
    intro l hl
    simp only [telC2, List.mem_singleton] at hl
    rw [hl]
    norm_num
  have heval : (find_all_routes topoC2 telC2 "a" "b" ([] : RouteCache)).1 =
      [routeC2] := by
    simp [find_all_routes, dfs_routes, dict_get, dict_set, telC2, topoC2,
      update_topology, init_topology, add_link, append_entry, topology_step,
      get_link_metrics, max_hops, min_inf, sort_routes, insert_desc, mk_route,
      routeC2]
  have hmem : routeC2 ∈ (find_all_routes topoC2 telC2 "a" "b" ([] : RouteCache)).1 := by
    rw [heval]
    exact List.mem_singleton_self _
  exact ⟨rfl, hu, C3_route_metrics topoC2 telC2 "a" "b" [] rfl hu routeC2 hmem⟩

/-! ## Claim C5 — the advisor does not exclude the active route -/

/-- Diamond-ish snapshot: the direct link `a`–`d` has failed, the detour
`a`–`b`–`d` is healthy. -/
def telC5 : TelemetryFrame :=
  ⟨[⟨"a", ComponentStatus.healthy⟩, ⟨"b", ComponentStatus.healthy⟩,
    ⟨"d", ComponentStatus.healthy⟩],
   [⟨"lad", "a", "d", ComponentStatus.failed, 1, 10, 10, 0⟩,
    ⟨"lab", "a", "b", ComponentStatus.healthy, 1, 10, 10, 0⟩,
    ⟨"lbd", "b", "d", ComponentStatus.healthy, 1, 10, 10, 0⟩]⟩

/-- The only candidate route of `telC5` for the pair `(a, d)`; it is also the
route recorded as active for that pair in `stC5`. -/
def activeC5 : Route :=
  ⟨"a", "d", ["a", "b", "d"], 2, some 10, 10, RouteQuality.good, 2⟩

/-- Router state whose active-route table maps `(a, d)` to `activeC5`. -/
def stC5 : RouterState := ⟨[], [], [(("a", "d"), activeC5)], []⟩

/-- The suggestions `suggest_reroutes` emits on `telC5` from `stC5`. -/
def suggC5 : List RerouteAction :=
  ((suggest_reroutes telC5 stC5).map Prod.fst).getD []

/-- The adjacency view `update_topology` builds from `telC5`, as an explicit
literal. -/
def topoC5val : TopologyCache :=
  [("a", [("b", ["lab"])]), ("b", [("a", ["lab"]), ("d", ["lbd"])]),
   ("d", [("b", ["lbd"])])]

theorem update_topology_telC5 : update_topology telC5 = some topoC5val := by
  decide

/-- The failure bottleneck `analyze_network_health` produces for `telC5`. -/
def bC5 : Bottleneck := ⟨"lad", "a", "d", Issue.failure⟩

theorem analyze_bottlenecks_telC5 : analyze_bottlenecks telC5 = [bC5] := by
  decide

theorem find_all_routes_telC5 :
    find_all_routes topoC5val telC5 "a" "d" ([] : RouteCache) =
      ([activeC5], [(("a", "d"), [activeC5])]) := by
  simp [find_all_routes, dfs_routes, get_link_metrics, dict_get, dict_set,
    sort_routes, insert_desc, mk_route, min_inf, max_hops, telC5, topoC5val,
    activeC5, assess_route_quality]
  norm_num

/-- C5 (amended): the chosen best candidate is simply the top-ranked candidate
of the route search, with no exclusion of the currently active route; in
particular, for a `failure` bottleneck with a nonempty candidate list the
advisor emits the top-ranked candidate as the suggestion even when its ordered
node sequence is identical to the active route, recording the active route as
`old_route`. -/
theorem C5_top_candidate_unfiltered (topo : TopologyCache)
    (tel : TelemetryFrame) (active : List ((String × String) × Route))
    (acc : List RerouteAction × RouteCache) (b : Bottleneck)
    (best : Route) (rest : List Route)
    (hb : b.issue = Issue.failure)
    (hr : (find_all_routes topo tel b.source_id b.target_id acc.2).1 =
      best :: rest) :
    bottleneck_step topo tel active acc b =
      (acc.1 ++ [⟨b.source_id, b.target_id,
        dict_get (b.source_id, b.target_id) active, best,
        "Avoid " ++ issue_label b.issue ++ " on " ++ b.link_id⟩],
       (find_all_routes topo tel b.source_id b.target_id acc.2).2) := by
  unfold bottleneck_step
  dsimp only
  rw [hr]
  have hg : suggest_gate best (dict_get (b.source_id, b.target_id) active)
      b.issue = true := by
    cases h : dict_get (b.source_id, b.target_id) active with
    | none => rfl
    | some r0 => simp [suggest_gate, is_route_better, hb]
  dsimp only
  rw [hg, if_pos rfl]

/-- Adjacency view built from `telC5`. -/
def topoC5 : TopologyCache := (update_topology telC5).getD []

theorem topoC5_eq : topoC5 = topoC5val := by
  unfold topoC5
  rw [update_topology_telC5]
  rfl

/-- The single suggestion `suggest_reroutes` produces on `telC5` from
`stC5`. -/
def actC5 : RerouteAction :=
  ⟨"a", "d", some activeC5, activeC5, "Avoid failure on lad"⟩

theorem suggest_reroutes_telC5 :
    suggest_reroutes telC5 stC5 =
      some ([actC5], ⟨topoC5val, [(("a", "d"), [activeC5])],
        [(("a", "d"), activeC5)], []⟩) := by
  have hstep := C5_top_candidate_unfiltered topoC5val telC5
    [(("a", "d"), activeC5)] ([], ([] : RouteCache)) bC5 activeC5 [] rfl
    (by show (find_all_routes topoC5val telC5 "a" "d" ([] : RouteCache)).1 =
          activeC5 :: []
        rw [find_all_routes_telC5])
  simp only [suggest_reroutes, update_topology_telC5, analyze_bottlenecks_telC5,
    stC5, List.foldl_cons, List.foldl_nil]
  rw [hstep]
  dsimp only [bC5]
  rw [find_all_routes_telC5]
  rfl

/-- C5 (counterexample): the claim asserts that no emitted suggestion has a
new route with the same ordered node sequence as the route recorded for the
pair in the active-route table, the best candidate being the top-ranked one
that is not the active route.  On `telC5` the failure of link `lad` makes the
advisor suggest the top candidate `a`–`b`–`d` for `(a, d)` even though exactly
that node sequence is recorded as active: the emitted suggestion's new route
and its old (active) route both have path `[a, b, d]`. -/
theorem C5_counterexample :
    dict_get ("a", "d") stC5.active_routes = some activeC5 ∧
    activeC5.path = ["a", "b", "d"] ∧
    suggC5.map (fun a => a.new_route.path) = [["a", "b", "d"]] ∧
    suggC5.map (fun a => a.old_route.map Route.path) = [some ["a", "b", "d"]] := by
  refine ⟨rfl, rfl, ?_, ?_⟩ <;>
    simp [suggC5, suggest_reroutes_telC5, actC5, activeC5]

theorem C5_witness :
    bC5.issue = Issue.failure ∧
    (find_all_routes topoC5 telC5 bC5.source_id bC5.target_id
      ([] : RouteCache)).1 = activeC5 :: [] ∧
    bottleneck_step topoC5 telC5 stC5.active_routes ([], []) bC5 =
      (([] : List RerouteAction) ++ [⟨bC5.source_id, bC5.target_id,
         dict_get (bC5.source_id, bC5.target_id) stC5.active_routes, activeC5,
         "Avoid " ++ issue_label bC5.issue ++ " on " ++ bC5.link_id⟩],
       (find_all_routes topoC5 telC5 bC5.source_id bC5.target_id
         ([] : RouteCache)).2) := by
  have hr : (find_all_routes topoC5 telC5 bC5.source_id bC5.target_id
      ([] : RouteCache)).1 = activeC5 :: [] := by
    rw [topoC5_eq]
    show (find_all_routes topoC5val telC5 "a" "d" ([] : RouteCache)).1 =
      activeC5 :: []
    rw [find_all_routes_telC5]
  exact ⟨rfl, hr, C5_top_candidate_unfiltered topoC5 telC5 stC5.active_routes
    ([], []) bC5 activeC5 [] rfl hr⟩

/-! ## Claim C6 — the route cache survives topology updates -/

/-- The snapshot of `telC2` one tick later: the only link has failed. -/
def telC6b : TelemetryFrame :=
  ⟨[⟨"a", ComponentStatus.healthy⟩, ⟨"b", ComponentStatus.healthy⟩],
   [⟨"lab", "a", "b", ComponentStatus.failed, 1, 10, 10, 0⟩]⟩

/-- The route cache left behind by a `find_all_routes` call on the healthy
snapshot `telC2` (it maps `(a, b)` to the route over link `lab`). -/
def cacheC6 : RouteCache := (find_all_routes topoC2 telC2 "a" "b" []).2

/-- Adjacency view rebuilt from `telC6b` (the failed link is absent). -/
def topoC6b : TopologyCache := (update_topology telC6b).getD []

/-- C6: the claim (and spec §4.2) requires the route cache to be cleared
whenever the topology update runs, so that no route-search result computed
from an earlier snapshot is ever returned after an update.  Nothing in the
source ever clears `self.route_cache`: after a tick on healthy `telC2` caches
the route `a`–`b`, the link fails and `update_topology` rebuilds the adjacency
from `telC6b` (conjunct 1; its only link is failed, conjunct 2), yet
`find_all_routes` still returns the stale cached route over the failed link
(conjunct 3), although a search against the fresh state finds no route at all
(conjunct 4). -/
theorem C6_stale_cache_served :
    update_topology telC6b = some topoC6b ∧
    telC6b.links.map Link.status = [ComponentStatus.failed] ∧
    (find_all_routes topoC6b telC6b "a" "b" cacheC6).1 = [routeC2] ∧
    (find_all_routes topoC6b telC6b "a" "b" []).1 = [] ∧
    routeC2.path = ["a", "b"] := by
  refine ⟨rfl, rfl, ?_, ?_, rfl⟩
  · have hc : dict_get ("a", "b") cacheC6 = some [routeC2] := by
      simp [cacheC6, find_all_routes, dfs_routes, get_link_metrics, dict_get,
        dict_set, sort_routes, insert_desc, mk_route, min_inf, max_hops,
        telC2, topoC2, update_topology, topology_step, init_topology,
        add_link, append_entry, routeC2, assess_route_quality]
    unfold find_all_routes
    rw [hc]
  · simp [find_all_routes, dfs_routes, get_link_metrics, dict_get, dict_set,
      sort_routes, insert_desc, mk_route, min_inf, max_hops, telC6b, topoC6b,
      update_topology, topology_step, init_topology, add_link, append_entry]

end NodeComm
